import Mathlib

/-
  Verification of the AllocatorBuilder core components:
  the free-list pooling allocator (src/alb/freelist.hpp) and the
  statistics-collecting decorator allocator (src/include/ALBAllocatorWithStats.h),
  together with the non-atomic compare-and-swap helper
  (src/alb/internal/noatomic.hpp).

  Machine integers (size_t) are modelled as Nat; where C++ unsigned wraparound
  can change an observable result (the statistics counters and the high-tide
  subtraction) the arithmetic is performed explicitly modulo 2^64.
  Memory addresses are modelled as natural numbers, with the C++ null pointer
  modelled as Option.none.
-/

/-- Width of size_t: all counter arithmetic in the statistics allocator is
performed modulo this value, matching C++ unsigned 64-bit semantics. -/
def M64 : Nat := 2 ^ 64

/-- Addition of two size_t values (wraps modulo 2^64). -/
def add64 (a b : Nat) : Nat := (a + b) % M64

/-- Subtraction of two size_t values (wraps modulo 2^64), as in the C++
expression computing currently allocated bytes in updateHighTide. -/
def sub64 (a b : Nat) : Nat := (a % M64 + (M64 - b % M64)) % M64

/-- Modelled from the spec: the Block value type of allocator_base.hpp /
ALBAllocatorBase.h (not under src/): a pointer (none models nullptr) and an
unsigned length, with the empty sentinel being a null pointer and length 0. -/
structure Block where
  ptr : Option Nat
  length : Nat
deriving DecidableEq

/-- Modelled from the spec: the empty Block sentinel (null pointer, length 0). -/
def Block.empty : Block := { ptr := none, length := 0 }

/-- Modelled from the spec: a Block converts to a success/failure boolean,
false exactly on the empty sentinel. -/
def Block.toBool (b : Block) : Bool := !(b.ptr == none && b.length == 0)

/-- Modelled from the spec: the delegate allocator of the capability contract.
Its observable allocation behaviour is a response function from the index of
the delegate-allocation call and the requested size to an optional base
address; none models an allocation failure (an empty Block is returned).
A delegate never satisfies a zero-byte request and always returns a block of
exactly the requested length on success. -/
structure Delegate where
  respond : Nat → Nat → Option Nat

namespace alb

/-- Configuration of freelist_base: the template parameters MinSize, MaxSize,
PoolSize and NumberOfBatchAllocations together with the delegate's
supports_truncated_deallocation capability flag; the bound holder is modelled
in its configured state (both bounds established). The model agrees with the
C++ unsigned loop arithmetic for every batchN ≥ 1. -/
structure FreelistConfig where
  lower : Nat
  upper : Nat
  poolSize : Nat
  batchN : Nat
  truncated : Bool
deriving DecidableEq

/-- State of a freelist_base instance: the pool stack `pool` (head = top of
stack; entries are the raw void* values pushed, so a null pointer can occur),
plus instrumentation of the delegate: the sizes of the delegate allocate
calls issued so far (in order) and the blocks handed to the delegate's
deallocate (in order). The pool models the fixed-capacity stack collaborator
(boost lockfree stack or internal::stack): push fails at capacity, pop takes
the most recently pushed entry. -/
structure FreelistState where
  pool : List (Option Nat)
  allocCalls : List Nat
  deallocCalls : List Block
deriving DecidableEq

/-- The freshly constructed freelist state: empty pool, no delegate traffic. -/
def freelistInit : FreelistState := { pool := [], allocCalls := [], deallocCalls := [] }

/-- One delegate allocation call, as observed through the freelist's
`_allocator.allocate(n)`: the call is recorded, and the resulting Block is
either `{some p, n}` on success or the empty Block on failure (a zero-byte
request always fails, per the capability contract). -/
def delegateAlloc (d : Delegate) (s : FreelistState) (n : Nat) : Block × FreelistState :=
  let res := if n = 0 then none else d.respond s.allocCalls.length n
  let b : Block :=
    match res with
    | some p => { ptr := some p, length := n }
    | none => Block.empty
  (b, { s with allocCalls := s.allocCalls ++ [n] })

namespace freelist_base

/-- freelist.hpp lines 211-214: ownership is a size-range test: the block is
non-empty and its length lies within the configured bounds. -/
def owns (cfg : FreelistConfig) (b : Block) : Bool :=
  b.toBool && decide (cfg.lower ≤ b.length) && decide (b.length ≤ cfg.upper)

/-- The body of the batch loop of freelist.hpp lines 162-169: push the
sub-block address onto the pool if the pool is below capacity; otherwise the
sub-block is handed back to the delegate for release. -/
def pushOrRelease (cfg : FreelistConfig) (blockSize : Nat) (s : FreelistState) (p : Nat) :
    FreelistState :=
  if s.pool.length < cfg.poolSize then { s with pool := some p :: s.pool }
  else { s with deallocCalls := s.deallocCalls ++ [{ ptr := some p, length := blockSize }] }

/-- The loop of freelist.hpp lines 176-183 (the delegate does not support
truncated deallocation): up to `k` iterations allocate a block of size
blockSize from the delegate and push its raw pointer (even a null pointer on
failure, as in the source); an iteration whose push fails (pool at capacity)
returns that allocation immediately; after all iterations a final delegate
allocation is returned. -/
def nontruncLoop (cfg : FreelistConfig) (d : Delegate) (blockSize : Nat) :
    Nat → FreelistState → Block × FreelistState
  | 0, s => delegateAlloc d s blockSize
  | Nat.succ k, s =>
    let r := delegateAlloc d s blockSize
    if r.2.pool.length < cfg.poolSize then
      nontruncLoop cfg d blockSize k { r.2 with pool := r.1.ptr :: r.2.pool }
    else r

/-- freelist.hpp lines 142-188, freelist_base::allocate: reject out-of-range
requests; otherwise serve from the pool (a popped pointer is returned with
length equal to the upper bound), and on a pool miss obtain memory from the
delegate using the batch strategy selected by the delegate's
truncated-deallocation capability. -/
def allocate (cfg : FreelistConfig) (d : Delegate) (s : FreelistState) (n : Nat) :
    Block × FreelistState :=
  if cfg.lower ≤ n ∧ n ≤ cfg.upper then
    match s.pool with
    | freeBlock :: rest => ({ ptr := freeBlock, length := cfg.upper }, { s with pool := rest })
    | [] =>
      let blockSize := cfg.upper
      if cfg.truncated then
        let batch := delegateAlloc d s (blockSize * cfg.batchN)
        if batch.1.toBool then
          ({ ptr := batch.1.ptr, length := blockSize },
            ((List.range' 1 (cfg.batchN - 1)).map
                (fun i => batch.1.ptr.getD 0 + i * blockSize)).foldl
              (pushOrRelease cfg blockSize) batch.2)
        else
          delegateAlloc d batch.2 blockSize
      else
        nontruncLoop cfg d blockSize (cfg.batchN - 1) s
  else (Block.empty, s)

/-- freelist.hpp lines 221-230, freelist_base::deallocate: only a non-empty
owned block is processed: it is pushed onto the pool (and the caller's handle
reset) or, if the pool is at capacity, handed to the delegate (which resets
the handle); any other block is left untouched. -/
def deallocate (cfg : FreelistConfig) (s : FreelistState) (b : Block) :
    Block × FreelistState :=
  if b.toBool && owns cfg b then
    if s.pool.length < cfg.poolSize then (Block.empty, { s with pool := b.ptr :: s.pool })
    else (Block.empty, { s with deallocCalls := s.deallocCalls ++ [b] })
  else (b, s)

end freelist_base

/-- noatomic.hpp lines 24-58: the NoAtomic wrapper holds a plain value. -/
structure NoAtomic (T : Type) where
  value : T

/-- noatomic.hpp lines 37-40: load returns the stored value. -/
def NoAtomic.load {T : Type} (a : NoAtomic T) : T := a.value

/-- noatomic.hpp lines 48-52: compare_exchange_strong ignores its expected
argument (the parameter is unnamed in the source), unconditionally stores v
and returns true. The result triple is the new wrapper state, the expected
argument as the caller sees it afterwards, and the returned boolean. -/
def NoAtomic.compare_exchange_strong {T : Type} (_a : NoAtomic T) (expected : T) (v : T) :
    NoAtomic T × T × Bool :=
  ({ value := v }, expected, true)

end alb

namespace ALB

namespace StatsOptions

/-- ALBAllocatorWithStats.h line 29. -/
def numOwns : Nat := 1 <<< 0

/-- ALBAllocatorWithStats.h line 34. -/
def numAllocate : Nat := 1 <<< 1

/-- ALBAllocatorWithStats.h line 39. -/
def numAllocateOK : Nat := 1 <<< 2

/-- ALBAllocatorWithStats.h line 44. -/
def numExpand : Nat := 1 <<< 3

/-- ALBAllocatorWithStats.h line 49. -/
def numExpandOK : Nat := 1 <<< 4

/-- ALBAllocatorWithStats.h line 54. -/
def numReallocate : Nat := 1 <<< 5

/-- ALBAllocatorWithStats.h line 59. -/
def numReallocateOK : Nat := 1 <<< 6

/-- ALBAllocatorWithStats.h line 68. -/
def numReallocateInPlace : Nat := 1 <<< 7

/-- ALBAllocatorWithStats.h line 72. -/
def numDeallocate : Nat := 1 <<< 8

/-- ALBAllocatorWithStats.h line 76. -/
def numDeallocateAll : Nat := 1 <<< 9

/-- ALBAllocatorWithStats.h line 88. -/
def bytesAllocated : Nat := 1 <<< 10

/-- ALBAllocatorWithStats.h line 94. -/
def bytesDeallocated : Nat := 1 <<< 11

/-- ALBAllocatorWithStats.h line 99. -/
def bytesExpanded : Nat := 1 <<< 12

/-- ALBAllocatorWithStats.h line 104. -/
def bytesContracted : Nat := 1 <<< 13

/-- ALBAllocatorWithStats.h line 111. -/
def bytesMoved : Nat := 1 <<< 14

/-- ALBAllocatorWithStats.h line 117. -/
def bytesSlack : Nat := 1 <<< 15

/-- ALBAllocatorWithStats.h line 122. -/
def bytesHighTide : Nat := 1 <<< 16

/-- ALBAllocatorWithStats.h line 132. -/
def callerSize : Nat := 1 <<< 17

/-- ALBAllocatorWithStats.h line 137. -/
def callerFile : Nat := 1 <<< 18

/-- ALBAllocatorWithStats.h line 142. -/
def callerFunction : Nat := 1 <<< 19

/-- ALBAllocatorWithStats.h line 147. -/
def callerLine : Nat := 1 <<< 20

/-- ALBAllocatorWithStats.h line 151. -/
def callerTime : Nat := 1 <<< 21

end StatsOptions

/-- The C++ test `Flags & option` of the counter update helpers. -/
def flagged (flags opt : Nat) : Bool := (flags &&& opt) != 0

/-- ALBAllocatorWithStats.h lines 190-193: HasPerAllocationState is true
exactly when one of callerTime, callerFile, callerLine is set. The source
tests only these three flags (callerSize and callerFunction do not appear),
and this model reproduces that test verbatim. -/
def hasPerAllocationState (flags : Nat) : Bool :=
  flagged flags (StatsOptions.callerTime ||| StatsOptions.callerFile ||| StatsOptions.callerLine)

/-- ALBAllocatorWithStats.h lines 263-270: the per-allocation metadata node.
A field written only under its flag is modelled as Option (none = the field
was never written, i.e. indeterminate prefix memory); the list links hold the
address (heap key) of the neighbour node or none for nullptr. -/
structure AllocationInfo where
  callerSize : Option Nat
  callerFile : Option Nat
  callerFunction : Option Nat
  callerLine : Option Nat
  callerTime : Option Nat
  previous : Option Nat
  next : Option Nat
deriving DecidableEq

/-- The live prefix headers, keyed by the address of the block they are
co-located with (the AffixAllocator collaborator recovers the header from
the block address). -/
abbrev Heap := List (Nat × AllocationInfo)

/-- Read the header stored at address a, if one is live there. -/
def heapGet (h : Heap) (a : Nat) : Option AllocationInfo :=
  (h.find? (fun kv => kv.1 == a)).map (fun kv => kv.2)

/-- Write through a header pointer: update the node at address a in place. -/
def heapUpdate (h : Heap) (a : Nat) (f : AllocationInfo → AllocationInfo) : Heap :=
  h.map (fun kv => if kv.1 == a then (kv.1, f kv.2) else kv)

/-- The header at address a dies (its block was released). -/
def heapErase (h : Heap) (a : Nat) : Heap :=
  h.filter (fun kv => kv.1 != a)

/-- A fresh header comes alive at address a. -/
def heapInsert (h : Heap) (a : Nat) (v : AllocationInfo) : Heap :=
  (a, v) :: heapErase h a

/-- State of an AllocatorWithStats instance: the list head `_root`, the live
prefix headers, a tick used to index delegate calls and as the capture-time
source, and the 17 statistics counters of the MEMBER_ACCESSORS block
(ALBAllocatorWithStats.h lines 202-222). -/
structure StatsState where
  root : Option Nat
  heap : Heap
  tick : Nat
  numOwns : Nat
  numAllocate : Nat
  numAllocateOK : Nat
  numExpand : Nat
  numExpandOK : Nat
  numReallocate : Nat
  numReallocateOK : Nat
  numReallocateInPlace : Nat
  numDeallocate : Nat
  numDeallocateAll : Nat
  bytesAllocated : Nat
  bytesDeallocated : Nat
  bytesExpanded : Nat
  bytesContracted : Nat
  bytesMoved : Nat
  bytesSlack : Nat
  bytesHighTide : Nat
deriving DecidableEq

/-- ALBAllocatorWithStats.h lines 309-328: the constructor zeroes every
counter and the list head. -/
def statsInit : StatsState :=
  { root := none, heap := [], tick := 0,
    numOwns := 0, numAllocate := 0, numAllocateOK := 0, numExpand := 0, numExpandOK := 0,
    numReallocate := 0, numReallocateOK := 0, numReallocateInPlace := 0,
    numDeallocate := 0, numDeallocateAll := 0,
    bytesAllocated := 0, bytesDeallocated := 0, bytesExpanded := 0, bytesContracted := 0,
    bytesMoved := 0, bytesSlack := 0, bytesHighTide := 0 }

/-- ALBAllocatorWithStats.h lines 227-231: increment the counter when the
flag is set. -/
def up (flags opt : Nat) (v : Nat) : Nat :=
  if flagged flags opt then add64 v 1 else v

/-- ALBAllocatorWithStats.h lines 232-236: increment when the flag is set and
the call succeeded. -/
def upOK (flags opt : Nat) (v : Nat) (ok : Bool) : Nat :=
  if flagged flags opt && ok then add64 v 1 else v

/-- ALBAllocatorWithStats.h lines 237-241: add the delta when the flag is
set. -/
def add (flags opt : Nat) (v delta : Nat) : Nat :=
  if flagged flags opt then add64 v delta else v

/-- ALBAllocatorWithStats.h lines 249-257: when bytesHighTide is enabled,
recompute currently allocated bytes (size_t subtraction) and raise the
high-tide if it is exceeded. -/
def updateHighTide (flags : Nat) (s : StatsState) : StatsState :=
  if flagged flags StatsOptions.bytesHighTide then
    let currentlyAllocated := sub64 s.bytesAllocated s.bytesDeallocated
    if s.bytesHighTide < currentlyAllocated then
      { s with bytesHighTide := currentlyAllocated }
    else s
  else s

/-- ALBAllocatorWithStats.h lines 335-340, the counter part of allocate:
delegate-allocate n bytes (the tick indexes the delegate call), count the
call, count the success (n > 0 and a non-empty result), add the result
length to bytesAllocated, and update the high-tide. -/
def statsAllocCore (flags : Nat) (d : Delegate) (s : StatsState) (n : Nat) :
    Block × StatsState :=
  let res : Block :=
    match (if n = 0 then none else d.respond s.tick n) with
    | some p => { ptr := some p, length := n }
    | none => Block.empty
  let s1 : StatsState :=
    { s with
      tick := s.tick + 1,
      numAllocate := up flags StatsOptions.numAllocate s.numAllocate,
      numAllocateOK := upOK flags StatsOptions.numAllocateOK s.numAllocateOK
        (decide (0 < n) && res.toBool),
      bytesAllocated := add flags StatsOptions.bytesAllocated s.bytesAllocated res.length }
  (res, updateHighTide flags s1)

/-- ALBAllocatorWithStats.h lines 342-358: populate the prefix node's
flag-selected fields and link it as the new list head (the previous head's
back link is set to the new node). -/
def linkNode (flags : Nat) (s : StatsState) (addr : Nat) (n file fn line time : Nat) :
    StatsState :=
  let nd : AllocationInfo :=
    { callerSize := if flagged flags StatsOptions.callerSize then some n else none,
      callerFile := if flagged flags StatsOptions.callerFile then some file else none,
      callerFunction := if flagged flags StatsOptions.callerFunction then some fn else none,
      callerLine := if flagged flags StatsOptions.callerLine then some line else none,
      callerTime := if flagged flags StatsOptions.callerTime then some time else none,
      previous := none, next := none }
  match s.root with
  | some r =>
    { s with
      heap := heapInsert (heapUpdate s.heap r (fun x => { x with previous := some addr }))
        addr { nd with next := some r },
      root := some addr }
  | none =>
    { s with heap := heapInsert s.heap addr nd, root := some addr }

/-- ALBAllocatorWithStats.h lines 335-361, AllocatorWithStats::allocate:
the counter stage followed, when the result is non-empty and per-allocation
state is active, by the node-linking stage. -/
def statsAllocate (flags : Nat) (d : Delegate) (s : StatsState) (n : Nat)
    (file fn line : Nat) : Block × StatsState :=
  let c := statsAllocCore flags d s n
  if c.1.toBool && hasPerAllocationState flags then
    match c.1.ptr with
    | some addr => (c.1, linkNode flags c.2 addr n file fn line s.tick)
    | none => c
  else c

/-- ALBAllocatorWithStats.h lines 373-378: the two neighbour splices of the
unlink sequence (writes through stat->previous and stat->next when they are
non-null). -/
def unlinkHeap (h : Heap) (stat : AllocationInfo) : Heap :=
  let h1 :=
    match stat.previous with
    | some pr => heapUpdate h pr (fun x => { x with next := stat.next })
    | none => h
  match stat.next with
  | some nx => heapUpdate h1 nx (fun x => { x with previous := stat.previous })
  | none => h1

/-- ALBAllocatorWithStats.h lines 372-379: locate the node co-located with
the block, splice its neighbours, and, if the node is the list head, set the
head to the node's previous pointer (exactly as the source does). -/
def unlinkNode (s : StatsState) (addr : Nat) : StatsState :=
  match heapGet s.heap addr with
  | some stat =>
    { s with
      heap := unlinkHeap s.heap stat,
      root := if s.root = some addr then stat.previous else s.root }
  | none => s

/-- ALBAllocatorWithStats.h lines 368-369, the counter part of deallocate:
count the call and add the block length to bytesDeallocated. -/
def statsDeallocCore (flags : Nat) (s : StatsState) (b : Block) : StatsState :=
  { s with
    numDeallocate := up flags StatsOptions.numDeallocate s.numDeallocate,
    bytesDeallocated := add flags StatsOptions.bytesDeallocated s.bytesDeallocated b.length }

/-- ALBAllocatorWithStats.h lines 371-380: when the block is non-empty and
per-allocation state is active, unlink its node. -/
def statsDeallocUnlink (flags : Nat) (s : StatsState) (b : Block) : StatsState :=
  if b.toBool && hasPerAllocationState flags then
    match b.ptr with
    | some addr => unlinkNode s addr
    | none => s
  else s

/-- ALBAllocatorWithStats.h line 381: forward to the internal delegate for
the actual release; a non-empty block's storage (and co-located prefix) dies
and the handle is reset by the well-behaved delegate. -/
def statsDeallocFree (s : StatsState) (b : Block) : Block × StatsState :=
  match b.ptr with
  | some addr => (Block.empty, { s with heap := heapErase s.heap addr })
  | none => (b, s)

/-- ALBAllocatorWithStats.h lines 367-382, AllocatorWithStats::deallocate:
counters, then the unlink stage, then the forward to the delegate. -/
def statsDeallocate (flags : Nat) (s : StatsState) (b : Block) : Block × StatsState :=
  statsDeallocFree (statsDeallocUnlink flags (statsDeallocCore flags s b) b) b

/-- The metadata list as visible through allocations() / the forward
iterator (ALBAllocatorWithStats.h lines 272-307): follow next pointers from
the head while the nodes are live, bounded by a fuel argument. -/
def walkList (h : Heap) : Nat → Option Nat → List (Nat × AllocationInfo)
  | 0, _ => []
  | _ + 1, none => []
  | fuel + 1, some a =>
    match heapGet h a with
    | none => []
    | some nd => (a, nd) :: walkList h fuel nd.next

/-- An operation issued against the statistics allocator: an allocation of n
bytes or a deallocation of a block. -/
inductive StatsOp where
  | alloc (n : Nat)
  | dealloc (b : Block)
deriving DecidableEq

/-- Execute one operation against the decorator (allocate discards the
returned block; source info arguments default to 0). -/
def statsStep (flags : Nat) (d : Delegate) (s : StatsState) : StatsOp → StatsState
  | StatsOp.alloc n => (statsAllocate flags d s n 0 0 0).2
  | StatsOp.dealloc b => (statsDeallocate flags s b).2

/-- Execute a sequence of operations in order. -/
def runOps (flags : Nat) (d : Delegate) (s : StatsState) : List StatsOp → StatsState
  | [] => s
  | op :: rest => runOps flags d (statsStep flags d s op) rest

/-- The value of (bytes allocated − bytes deallocated) observed after each
operation of the sequence: the spec's "maximum observed over the lifetime" is
the maximum of this trace and the initial 0. -/
def outstandingTrace (flags : Nat) (d : Delegate) (s : StatsState) : List StatsOp → List Nat
  | [] => []
  | op :: rest =>
    ((statsStep flags d s op).bytesAllocated - (statsStep flags d s op).bytesDeallocated) ::
      outstandingTrace flags d (statsStep flags d s op) rest

/-- The sum of the requested allocation sizes of a sequence (an upper bound
on the bytesAllocated counter it can produce). -/
def allocTotal : List StatsOp → Nat
  | [] => 0
  | StatsOp.alloc n :: rest => n + allocTotal rest
  | StatsOp.dealloc b :: rest => allocTotal rest

/-- Well-formedness of a sequence: every deallocation releases at most the
bytes outstanding at that point (blocks are only returned to the allocator
that produced them). -/
def wfOps (flags : Nat) (d : Delegate) (s : StatsState) : List StatsOp → Bool
  | [] => true
  | StatsOp.alloc n :: rest => wfOps flags d (statsStep flags d s (StatsOp.alloc n)) rest
  | StatsOp.dealloc b :: rest =>
    decide (b.length ≤ s.bytesAllocated - s.bytesDeallocated) &&
      wfOps flags d (statsStep flags d s (StatsOp.dealloc b)) rest

end ALB

/-- A delegate that always fails. -/
def dFail : Delegate := { respond := fun _ _ => none }

/-- A delegate returning a fresh block at address 100*(k+1) for the k-th
call. -/
def dSeq : Delegate := { respond := fun k _ => some (100 * (k + 1)) }

/-- A delegate returning a fresh block at address 10+k for the k-th call. -/
def dTen : Delegate := { respond := fun k _ => some (10 + k) }

open alb alb.freelist_base ALB

theorem delegateAlloc_inv (d : Delegate) (s : alb.FreelistState) (n : Nat) :
    ((alb.delegateAlloc d s n).1.ptr = none ↔ (alb.delegateAlloc d s n).1.length = 0) := by
  unfold alb.delegateAlloc
  by_cases hn : n = 0
  · simp [hn, Block.empty]
  · cases h : d.respond s.allocCalls.length n with
    | none => simp [hn, h, Block.empty]
    | some p => simp [hn, h]

theorem delegateAlloc_length (d : Delegate) (s : alb.FreelistState) (n : Nat)
    (h : (alb.delegateAlloc d s n).1.toBool = true) :
    (alb.delegateAlloc d s n).1.length = n := by
  unfold alb.delegateAlloc at h ⊢
  by_cases hn : n = 0
  · simp [hn, Block.empty, Block.toBool] at h
  · cases hr : d.respond s.allocCalls.length n with
    | none => simp [hn, hr, Block.empty, Block.toBool] at h
    | some p => simp [hn, hr]

theorem delegateAlloc_ptr (d : Delegate) (s : alb.FreelistState) (n : Nat)
    (h : (alb.delegateAlloc d s n).1.toBool = true) :
    (alb.delegateAlloc d s n).1.ptr.isSome = true := by
  unfold alb.delegateAlloc at h ⊢
  by_cases hn : n = 0
  · simp [hn, Block.empty, Block.toBool] at h
  · cases hr : d.respond s.allocCalls.length n with
    | none => simp [hn, hr, Block.empty, Block.toBool] at h
    | some p => simp [hn, hr]

theorem nontruncLoop_length (cfg : FreelistConfig) (d : Delegate) (bs : Nat) :
    ∀ (k : Nat) (s : alb.FreelistState),
      (nontruncLoop cfg d bs k s).1.toBool = true →
      (nontruncLoop cfg d bs k s).1.length = bs := by
  intro k
  induction k with
  | zero => intro s h; exact delegateAlloc_length d s bs h
  | succ k ih =>
    intro s h
    unfold nontruncLoop at h ⊢
    by_cases hp : ((alb.delegateAlloc d s bs).2.pool.length < cfg.poolSize)
    · rw [if_pos hp] at h ⊢; exact ih _ h
    · rw [if_neg hp] at h ⊢; exact delegateAlloc_length d s bs h

theorem nontruncLoop_inv (cfg : FreelistConfig) (d : Delegate) (bs : Nat) :
    ∀ (k : Nat) (s : alb.FreelistState),
      ((nontruncLoop cfg d bs k s).1.ptr = none ↔ (nontruncLoop cfg d bs k s).1.length = 0) := by
  intro k
  induction k with
  | zero => intro s; exact delegateAlloc_inv d s bs
  | succ k ih =>
    intro s
    unfold nontruncLoop
    by_cases hp : ((alb.delegateAlloc d s bs).2.pool.length < cfg.poolSize)
    · rw [if_pos hp]; exact ih _
    · rw [if_neg hp]; exact delegateAlloc_inv d s bs

theorem allocate_length_of_toBool (cfg : FreelistConfig) (d : Delegate) (s : alb.FreelistState)
    (n : Nat) (h1 : cfg.lower ≤ n) (h2 : n ≤ cfg.upper)
    (hb : (allocate cfg d s n).1.toBool = true) :
    (allocate cfg d s n).1.length = cfg.upper := by
  unfold allocate at hb ⊢
  rw [if_pos ⟨h1, h2⟩] at hb ⊢
  cases hp : s.pool with
  | cons fb rest => rw [hp] at hb
  | nil =>
    rw [hp] at hb
    by_cases ht : cfg.truncated
    · simp only [ht, if_true] at hb ⊢
      by_cases hbt : (alb.delegateAlloc d s (cfg.upper * cfg.batchN)).1.toBool = true
      · simp only [hbt, if_true] at hb ⊢
      · simp only [hbt, Bool.false_eq_true, if_false] at hb ⊢
        · exact delegateAlloc_length _ _ _ hb
    · simp only [ht, Bool.false_eq_true, if_false] at hb ⊢
      exact nontruncLoop_length cfg d cfg.upper _ s hb

theorem allocate_invariant (cfg : FreelistConfig) (d : Delegate) (s : alb.FreelistState)
    (n : Nat) (hu : 0 < cfg.upper)
    (hpool : ∀ p ∈ s.pool, p.isSome = true) :
    ((allocate cfg d s n).1.ptr = none ↔ (allocate cfg d s n).1.length = 0) := by
  unfold allocate
  by_cases hin : cfg.lower ≤ n ∧ n ≤ cfg.upper
  · rw [if_pos hin]
    cases hp : s.pool with
    | cons fb rest =>
      have hfb : fb.isSome = true := hpool fb (by rw [hp]; exact List.mem_cons_self fb rest)
      cases fb with
      | none => simp at hfb
      | some p => simp; omega
    | nil =>
      by_cases ht : cfg.truncated
      · simp only [ht, if_true]
        by_cases hbt : (alb.delegateAlloc d s (cfg.upper * cfg.batchN)).1.toBool = true
        · simp only [hbt, if_true]
          have hptr := delegateAlloc_ptr d s (cfg.upper * cfg.batchN) hbt
          constructor
          · intro hc; simp [hc] at hptr
          · intro hc; omega
        · simp only [hbt, Bool.false_eq_true, if_false]
          exact delegateAlloc_inv d _ cfg.upper
      · simp only [ht, Bool.false_eq_true, if_false]
        exact nontruncLoop_inv cfg d cfg.upper _ s
  · rw [if_neg hin]
    simp [Block.empty]

theorem foldl_pushOrRelease (cfg : FreelistConfig) (bs : Nat) :
    ∀ (ps : List Nat) (s : alb.FreelistState),
      s.pool.length + ps.length ≤ cfg.poolSize →
      ps.foldl (pushOrRelease cfg bs) s =
        { s with pool := (ps.map some).reverse ++ s.pool } := by
  intro ps
  induction ps with
  | nil => intro s h; simp
  | cons p rest ih =>
    intro s h
    have hlt : s.pool.length < cfg.poolSize := by
      simp only [List.length_cons] at h; omega
    rw [List.foldl_cons]
    have hstep : pushOrRelease cfg bs s p = { s with pool := some p :: s.pool } := by
      unfold pushOrRelease; rw [if_pos hlt]
    rw [hstep, ih _ (by simp only [List.length_cons] at h ⊢; omega)]
    simp

theorem add64_eq (a b : Nat) (h : a + b < M64) : add64 a b = a + b :=
  Nat.mod_eq_of_lt h

theorem sub64_eq (a b : Nat) (ha : a < M64) (hb : b ≤ a) : sub64 a b = a - b := by
  unfold sub64
  rw [Nat.mod_eq_of_lt ha, Nat.mod_eq_of_lt (lt_of_le_of_lt hb ha)]
  have h1 : a + (M64 - b) = (a - b) + M64 := by
    have : b < M64 := lt_of_le_of_lt hb ha
    omega
  rw [h1, Nat.add_mod_right, Nat.mod_eq_of_lt (by omega)]

theorem updateHighTide_bytesAllocated (F : Nat) (s : StatsState) :
    (updateHighTide F s).bytesAllocated = s.bytesAllocated := by
  unfold updateHighTide
  dsimp only
  split
  · split <;> rfl
  · rfl

theorem updateHighTide_bytesDeallocated (F : Nat) (s : StatsState) :
    (updateHighTide F s).bytesDeallocated = s.bytesDeallocated := by
  unfold updateHighTide
  dsimp only
  split
  · split <;> rfl
  · rfl

theorem updateHighTide_HT (F : Nat) (s : StatsState)
    (hf : flagged F StatsOptions.bytesHighTide = true) :
    (updateHighTide F s).bytesHighTide =
      Nat.max s.bytesHighTide (sub64 s.bytesAllocated s.bytesDeallocated) := by
  unfold updateHighTide
  rw [if_pos hf]
  dsimp only
  split
  · next h => exact (Nat.max_eq_right (Nat.le_of_lt h)).symm
  · next h => exact (Nat.max_eq_left (Nat.le_of_not_lt h)).symm

theorem statsAllocCore_length_le (F : Nat) (d : Delegate) (s : StatsState) (n : Nat) :
    (statsAllocCore F d s n).1.length ≤ n := by
  unfold statsAllocCore
  cases h : (if n = 0 then none else d.respond s.tick n) with
  | none => simp [h, Block.empty]
  | some p => simp [h]

theorem statsAllocCore_spec (F : Nat) (d : Delegate) (s : StatsState) (n : Nat)
    (hA : flagged F StatsOptions.bytesAllocated = true)
    (hH : flagged F StatsOptions.bytesHighTide = true)
    (hlt : s.bytesAllocated + n < M64) (hdl : s.bytesDeallocated ≤ s.bytesAllocated) :
    (statsAllocCore F d s n).2.bytesAllocated =
      s.bytesAllocated + (statsAllocCore F d s n).1.length ∧
    (statsAllocCore F d s n).2.bytesDeallocated = s.bytesDeallocated ∧
    (statsAllocCore F d s n).2.bytesHighTide =
      Nat.max s.bytesHighTide
        (s.bytesAllocated + (statsAllocCore F d s n).1.length - s.bytesDeallocated) := by
  have hlen := statsAllocCore_length_le F d s n
  have hlt2 : s.bytesAllocated + (statsAllocCore F d s n).1.length < M64 := by omega
  unfold statsAllocCore at hlen hlt2 ⊢
  dsimp only at hlen hlt2 ⊢
  rw [updateHighTide_bytesAllocated, updateHighTide_bytesDeallocated, updateHighTide_HT F _ hH]
  dsimp only
  unfold add
  rw [if_pos hA, add64_eq _ _ hlt2]
  refine ⟨rfl, rfl, ?_⟩
  rw [sub64_eq _ _ hlt2 (by omega)]

theorem linkNode_counters (F : Nat) (s : StatsState) (addr n file fn line time : Nat) :
    (linkNode F s addr n file fn line time).bytesAllocated = s.bytesAllocated ∧
    (linkNode F s addr n file fn line time).bytesDeallocated = s.bytesDeallocated ∧
    (linkNode F s addr n file fn line time).bytesHighTide = s.bytesHighTide := by
  unfold linkNode
  cases h : s.root <;> exact ⟨rfl, rfl, rfl⟩

theorem statsAllocate_counters (F : Nat) (d : Delegate) (s : StatsState) (n file fn line : Nat) :
    (statsAllocate F d s n file fn line).2.bytesAllocated =
      (statsAllocCore F d s n).2.bytesAllocated ∧
    (statsAllocate F d s n file fn line).2.bytesDeallocated =
      (statsAllocCore F d s n).2.bytesDeallocated ∧
    (statsAllocate F d s n file fn line).2.bytesHighTide =
      (statsAllocCore F d s n).2.bytesHighTide ∧
    (statsAllocate F d s n file fn line).1 = (statsAllocCore F d s n).1 := by
  unfold statsAllocate
  dsimp only
  split
  · cases h : (statsAllocCore F d s n).1.ptr with
    | none => exact ⟨rfl, rfl, rfl, rfl⟩
    | some addr =>
      have hl := linkNode_counters F (statsAllocCore F d s n).2 addr n file fn line s.tick
      exact ⟨hl.1, hl.2.1, hl.2.2, rfl⟩
  · exact ⟨rfl, rfl, rfl, rfl⟩

theorem unlinkNode_counters (s : StatsState) (addr : Nat) :
    (unlinkNode s addr).bytesAllocated = s.bytesAllocated ∧
    (unlinkNode s addr).bytesDeallocated = s.bytesDeallocated ∧
    (unlinkNode s addr).bytesHighTide = s.bytesHighTide ∧
    (unlinkNode s addr).numDeallocate = s.numDeallocate := by
  unfold unlinkNode
  cases h : heapGet s.heap addr <;> exact ⟨rfl, rfl, rfl, rfl⟩

theorem statsDeallocate_counters (F : Nat) (s : StatsState) (b : Block)
    (hD : flagged F StatsOptions.bytesDeallocated = true)
    (hlt : s.bytesDeallocated + b.length < M64) :
    (statsDeallocate F s b).2.bytesAllocated = s.bytesAllocated ∧
    (statsDeallocate F s b).2.bytesDeallocated = s.bytesDeallocated + b.length ∧
    (statsDeallocate F s b).2.bytesHighTide = s.bytesHighTide := by
  have hcore : (statsDeallocCore F s b).bytesAllocated = s.bytesAllocated ∧
      (statsDeallocCore F s b).bytesDeallocated = s.bytesDeallocated + b.length ∧
      (statsDeallocCore F s b).bytesHighTide = s.bytesHighTide := by
    unfold statsDeallocCore add
    rw [if_pos hD, add64_eq _ _ hlt]
    exact ⟨rfl, rfl, rfl⟩
  have hunlink : ∀ (t : StatsState),
      (statsDeallocUnlink F t b).bytesAllocated = t.bytesAllocated ∧
      (statsDeallocUnlink F t b).bytesDeallocated = t.bytesDeallocated ∧
      (statsDeallocUnlink F t b).bytesHighTide = t.bytesHighTide := by
    intro t
    unfold statsDeallocUnlink
    split
    · cases hp : b.ptr with
      | none => exact ⟨rfl, rfl, rfl⟩
      | some addr =>
        exact ⟨(unlinkNode_counters t addr).1, (unlinkNode_counters t addr).2.1,
          (unlinkNode_counters t addr).2.2.1⟩
    · exact ⟨rfl, rfl, rfl⟩
  have hfree : ∀ (t : StatsState),
      (statsDeallocFree t b).2.bytesAllocated = t.bytesAllocated ∧
      (statsDeallocFree t b).2.bytesDeallocated = t.bytesDeallocated ∧
      (statsDeallocFree t b).2.bytesHighTide = t.bytesHighTide := by
    intro t
    unfold statsDeallocFree
    cases hp : b.ptr with
    | none => exact ⟨rfl, rfl, rfl⟩
    | some addr => exact ⟨rfl, rfl, rfl⟩
  unfold statsDeallocate
  refine ⟨?_, ?_, ?_⟩
  · rw [(hfree _).1, (hunlink _).1, hcore.1]
  · rw [(hfree _).2.1, (hunlink _).2.1, hcore.2.1]
  · rw [(hfree _).2.2, (hunlink _).2.2, hcore.2.2]

theorem outstandingTrace_cons (F : Nat) (d : Delegate) (s : StatsState) (op : StatsOp)
    (rest : List StatsOp) :
    outstandingTrace F d s (op :: rest) =
      ((statsStep F d s op).bytesAllocated - (statsStep F d s op).bytesDeallocated) ::
        outstandingTrace F d (statsStep F d s op) rest := rfl

theorem runOps_highTide (F : Nat) (d : Delegate)
    (hA : flagged F StatsOptions.bytesAllocated = true)
    (hD : flagged F StatsOptions.bytesDeallocated = true)
    (hH : flagged F StatsOptions.bytesHighTide = true) :
    ∀ (ops : List StatsOp) (s : StatsState),
      s.bytesDeallocated ≤ s.bytesAllocated →
      s.bytesAllocated - s.bytesDeallocated ≤ s.bytesHighTide →
      s.bytesAllocated + allocTotal ops < M64 →
      wfOps F d s ops = true →
      (runOps F d s ops).bytesHighTide =
        (outstandingTrace F d s ops).foldl Nat.max s.bytesHighTide := by
  intro ops
  induction ops with
  | nil => intro s _ _ _ _; rfl
  | cons op rest ih =>
    intro s hdl hinv hbound hwf
    cases op with
    | alloc n =>
      have hboundn : s.bytesAllocated + n < M64 := by
        unfold allocTotal at hbound; omega
      have hc := statsAllocCore_spec F d s n hA hH hboundn hdl
      have ha := statsAllocate_counters F d s n 0 0 0
      have hlen := statsAllocCore_length_le F d s n
      have hstep : statsStep F d s (StatsOp.alloc n) = (statsAllocate F d s n 0 0 0).2 := rfl
      have hbA : (statsStep F d s (StatsOp.alloc n)).bytesAllocated =
          s.bytesAllocated + (statsAllocCore F d s n).1.length := by
        rw [hstep, ha.1, hc.1]
      have hbD : (statsStep F d s (StatsOp.alloc n)).bytesDeallocated = s.bytesDeallocated := by
        rw [hstep, ha.2.1, hc.2.1]
      have hHT : (statsStep F d s (StatsOp.alloc n)).bytesHighTide =
          Nat.max s.bytesHighTide
            (s.bytesAllocated + (statsAllocCore F d s n).1.length - s.bytesDeallocated) := by
        rw [hstep, ha.2.2.1, hc.2.2]
      show (runOps F d (statsStep F d s (StatsOp.alloc n)) rest).bytesHighTide = _
      rw [ih (statsStep F d s (StatsOp.alloc n))
        (by rw [hbA, hbD]; omega)
        (by rw [hbA, hbD, hHT]; exact Nat.le_max_right _ _)
        (by rw [hbA]; unfold allocTotal at hbound; omega)
        (by exact hwf)]
      rw [outstandingTrace_cons, List.foldl_cons, hbA, hbD, hHT]
    | dealloc b =>
      have hwf2 : decide (b.length ≤ s.bytesAllocated - s.bytesDeallocated) = true ∧
          wfOps F d (statsStep F d s (StatsOp.dealloc b)) rest = true := by
        unfold wfOps at hwf
        exact Bool.and_eq_true_iff.mp hwf
      have hble : b.length ≤ s.bytesAllocated - s.bytesDeallocated := of_decide_eq_true hwf2.1
      have hboundd : s.bytesDeallocated + b.length < M64 := by omega
      have hd2 := statsDeallocate_counters F s b hD hboundd
      have hstep : statsStep F d s (StatsOp.dealloc b) = (statsDeallocate F s b).2 := rfl
      have hbA : (statsStep F d s (StatsOp.dealloc b)).bytesAllocated = s.bytesAllocated := by
        rw [hstep, hd2.1]
      have hbD : (statsStep F d s (StatsOp.dealloc b)).bytesDeallocated =
          s.bytesDeallocated + b.length := by
        rw [hstep, hd2.2.1]
      have hHT : (statsStep F d s (StatsOp.dealloc b)).bytesHighTide = s.bytesHighTide := by
        rw [hstep, hd2.2.2]
      show (runOps F d (statsStep F d s (StatsOp.dealloc b)) rest).bytesHighTide = _
      rw [ih (statsStep F d s (StatsOp.dealloc b))
        (by rw [hbA, hbD]; omega)
        (by rw [hbA, hbD, hHT]; omega)
        (by rw [hbA]; unfold allocTotal at hbound; omega)
        hwf2.2]
      rw [outstandingTrace_cons, List.foldl_cons, hbA, hbD, hHT]
      have hmax : Nat.max s.bytesHighTide (s.bytesAllocated - (s.bytesDeallocated + b.length)) =
          s.bytesHighTide := by
        apply Nat.max_eq_left
        omega
      rw [hmax]

/-- Claim C1, counterexample: at the concrete input of a non-empty block of
length 16 against bounds [4, 8], deallocate does NOT forward the block to the
delegate: the state (including the record of delegate deallocations, which
stays empty) and the caller's block are left completely unchanged, refuting
the claim that such a block is forwarded to the delegate for release. -/
theorem claim_C1_counterexample :
    freelist_base.deallocate { lower := 4, upper := 8, poolSize := 4, batchN := 2, truncated := true }
        alb.freelistInit { ptr := some 42, length := 16 } =
      ({ ptr := some 42, length := 16 }, alb.freelistInit) ∧
    (freelist_base.deallocate { lower := 4, upper := 8, poolSize := 4, batchN := 2, truncated := true }
        alb.freelistInit { ptr := some 42, length := 16 }).2.deallocCalls = [] := by
  constructor <;> rfl

/-- Claim C1, amended: for every non-empty block whose length lies outside
the configured [lower, upper] range, freelist_base::deallocate is a complete
no-op: the pool is not modified, nothing is forwarded to the delegate, and
the caller's handle is left unchanged. -/
theorem claim_C1_amended (cfg : FreelistConfig) (s : alb.FreelistState) (b : Block)
    (hb : b.toBool = true)
    (hout : ¬(cfg.lower ≤ b.length ∧ b.length ≤ cfg.upper)) :
    freelist_base.deallocate cfg s b = (b, s) := by
  have h : owns cfg b = false := by
    unfold owns
    rcases not_and_or.mp hout with h | h <;> simp [h]
  unfold freelist_base.deallocate
  rw [h]
  simp

/-- Claim C1, witness: the amended theorem applied at the concrete
out-of-range block. -/
theorem claim_C1_witness :
    freelist_base.deallocate { lower := 4, upper := 8, poolSize := 4, batchN := 2, truncated := true }
        alb.freelistInit { ptr := some 42, length := 16 } =
      ({ ptr := some 42, length := 16 }, alb.freelistInit) :=
  claim_C1_amended { lower := 4, upper := 8, poolSize := 4, batchN := 2, truncated := true }
    alb.freelistInit { ptr := some 42, length := 16 } (by decide) (by decide)

/-- Claim C6: for every request n inside [lower, upper], whenever
freelist_base::allocate returns a non-empty Block, that Block's length is
exactly the upper bound, on every return path (pool hit, truncated batch,
batch-failure fallback, and every exit of the non-truncated loop). The
hypothesis batchN ≥ 1 records that the model matches the C++ unsigned loop
arithmetic only for a positive batch count. -/
theorem claim_C6 (cfg : FreelistConfig) (d : Delegate) (s : alb.FreelistState) (n : Nat)
    (hN : 1 ≤ cfg.batchN) (h1 : cfg.lower ≤ n) (h2 : n ≤ cfg.upper)
    (hb : (allocate cfg d s n).1.toBool = true) :
    (allocate cfg d s n).1.length = cfg.upper :=
  allocate_length_of_toBool cfg d s n h1 h2 hb

/-- Claim C6, witness: an in-range allocation against a batch-capable
delegate returns a block of length exactly the upper bound 8. -/
theorem claim_C6_witness :
    (allocate { lower := 4, upper := 8, poolSize := 4, batchN := 2, truncated := true }
        dSeq alb.freelistInit 5).1.length = 8 :=
  claim_C6 { lower := 4, upper := 8, poolSize := 4, batchN := 2, truncated := true }
    dSeq alb.freelistInit 5 (by decide) (by decide) (by decide) (by decide)

/-- Claim C4, counterexample: with a failing delegate and the non-truncated
strategy, the loop pushes the failed allocation's null pointer onto the pool;
the next in-range allocate pops it and returns the Block {null, 8}, whose
pointer is none while its length is the upper bound 8 ≠ 0 — violating the
claimed Block invariant on a block served by popping the pool after pushes
from the non-truncated batch-allocation loop. -/
theorem claim_C4_counterexample :
    (allocate { lower := 1, upper := 8, poolSize := 4, batchN := 2, truncated := false } dFail
        (allocate { lower := 1, upper := 8, poolSize := 4, batchN := 2, truncated := false } dFail
          alb.freelistInit 4).2 4).1 = { ptr := none, length := 8 } ∧
    ¬(({ ptr := none, length := 8 } : Block).ptr = none ↔
      ({ ptr := none, length := 8 } : Block).length = 0) := by
  constructor
  · rfl
  · decide

/-- Claim C4, amended: every Block returned by freelist_base::allocate
satisfies the invariant (pointer is none iff length is 0) provided the pool
contains no null pointers — which holds whenever every delegate allocation
pushed by the non-truncated loop succeeded — and the upper bound is
positive. -/
theorem claim_C4_amended (cfg : FreelistConfig) (d : Delegate) (s : alb.FreelistState) (n : Nat)
    (hN : 1 ≤ cfg.batchN) (hu : 0 < cfg.upper)
    (hpool : ∀ p ∈ s.pool, p.isSome = true) :
    ((allocate cfg d s n).1.ptr = none ↔ (allocate cfg d s n).1.length = 0) :=
  allocate_invariant cfg d s n hu hpool

/-- Claim C4, witness: the amended invariant at a concrete batch
allocation. -/
theorem claim_C4_witness :
    ((allocate { lower := 4, upper := 8, poolSize := 4, batchN := 2, truncated := true }
        dSeq alb.freelistInit 5).1.ptr = none ↔
      (allocate { lower := 4, upper := 8, poolSize := 4, batchN := 2, truncated := true }
        dSeq alb.freelistInit 5).1.length = 0) :=
  claim_C4_amended { lower := 4, upper := 8, poolSize := 4, batchN := 2, truncated := true }
    dSeq alb.freelistInit 5 (by decide) (by decide) (by decide)

/-- Claim C7: on a truncated-deallocation delegate with batch size N > 1, an
allocate that finds the pool empty and whose batch allocation succeeds (with
room in the pool) issues exactly one delegate allocation call, of size
upper * N, returns the first sub-block (base address, length upper), leaves
exactly N - 1 recycled entries in the pool, and releases nothing to the
delegate. -/
theorem claim_C7 (cfg : FreelistConfig) (d : Delegate) (s : alb.FreelistState) (n base : Nat)
    (ht : cfg.truncated = true) (hN : 1 < cfg.batchN) (hu : 0 < cfg.upper)
    (hpool : s.pool = []) (h1 : cfg.lower ≤ n) (h2 : n ≤ cfg.upper)
    (hroom : cfg.batchN - 1 ≤ cfg.poolSize)
    (hresp : d.respond s.allocCalls.length (cfg.upper * cfg.batchN) = some base) :
    (allocate cfg d s n).1 = { ptr := some base, length := cfg.upper } ∧
    (allocate cfg d s n).2.allocCalls = s.allocCalls ++ [cfg.upper * cfg.batchN] ∧
    (allocate cfg d s n).2.pool.length = cfg.batchN - 1 ∧
    (allocate cfg d s n).2.deallocCalls = s.deallocCalls := by
  have hsz : cfg.upper * cfg.batchN ≠ 0 := by positivity
  have hbatch : alb.delegateAlloc d s (cfg.upper * cfg.batchN) =
      ({ ptr := some base, length := cfg.upper * cfg.batchN },
        { s with allocCalls := s.allocCalls ++ [cfg.upper * cfg.batchN] }) := by
    unfold alb.delegateAlloc
    simp [hsz, hresp]
  have hbt : (alb.delegateAlloc d s (cfg.upper * cfg.batchN)).1.toBool = true := by
    rw [hbatch]; simp [Block.toBool]
  unfold allocate
  rw [if_pos ⟨h1, h2⟩, hpool]
  simp only [ht, if_true, hbt, if_true]
  rw [hbatch]
  rw [hpool]
  have hfold := foldl_pushOrRelease cfg cfg.upper
    ((List.range' 1 (cfg.batchN - 1)).map
      (fun i => (some base : Option Nat).getD 0 + i * cfg.upper))
    { pool := [], allocCalls := s.allocCalls ++ [cfg.upper * cfg.batchN],
      deallocCalls := s.deallocCalls }
    (by simp [List.length_range']; omega)
  rw [hfold]
  refine ⟨rfl, rfl, ?_, rfl⟩
  simp [List.length_range']

/-- Claim C7, witness: batch size 3 against a fresh pool: one delegate call
of size 24, first sub-block returned, two recycled pool entries. -/
theorem claim_C7_witness :
    (allocate { lower := 4, upper := 8, poolSize := 4, batchN := 3, truncated := true }
        dSeq alb.freelistInit 5).1 = { ptr := some 100, length := 8 } ∧
    (allocate { lower := 4, upper := 8, poolSize := 4, batchN := 3, truncated := true }
        dSeq alb.freelistInit 5).2.allocCalls = [] ++ [8 * 3] ∧
    (allocate { lower := 4, upper := 8, poolSize := 4, batchN := 3, truncated := true }
        dSeq alb.freelistInit 5).2.pool.length = 3 - 1 ∧
    (allocate { lower := 4, upper := 8, poolSize := 4, batchN := 3, truncated := true }
        dSeq alb.freelistInit 5).2.deallocCalls = [] :=
  claim_C7 { lower := 4, upper := 8, poolSize := 4, batchN := 3, truncated := true }
    dSeq alb.freelistInit 5 100 (by decide) (by decide) (by decide) (by decide)
    (by decide) (by decide) (by decide) (by decide)

/-- Claim C9, counterexample: with pool capacity 1 and batch size 2, the
first allocate fills the pool with the sibling sub-block (address 108); the
deallocate of the returned block (address 100) finds the pool at capacity
and forwards to the delegate, and the next allocate pops the sibling: the
pointer returned (108) differs from the original (100), refuting the claim
that the round trip always returns the same pointer whenever the capacity
is at least 1. -/
theorem claim_C9_counterexample :
    (allocate { lower := 4, upper := 8, poolSize := 1, batchN := 2, truncated := true } dSeq
        alb.freelistInit 4).1.ptr = some 100 ∧
    (allocate { lower := 4, upper := 8, poolSize := 1, batchN := 2, truncated := true } dSeq
        (freelist_base.deallocate { lower := 4, upper := 8, poolSize := 1, batchN := 2, truncated := true }
          (allocate { lower := 4, upper := 8, poolSize := 1, batchN := 2, truncated := true } dSeq
            alb.freelistInit 4).2
          (allocate { lower := 4, upper := 8, poolSize := 1, batchN := 2, truncated := true } dSeq
            alb.freelistInit 4).1).2 4).1.ptr = some 108 := by
  constructor <;> rfl

/-- Claim C9, amended: an in-range allocate followed by deallocate of the
returned (non-empty) block and another in-range allocate returns the same
pointer, served from the pool with no fresh delegate allocation — provided
the pool is below capacity at the moment of the deallocate (in particular
whenever the pool capacity is at least the batch size). The hypothesis
batchN ≥ 1 records that the model matches the C++ unsigned loop arithmetic
only for a positive batch count. -/
theorem claim_C9_amended (cfg : FreelistConfig) (d : Delegate) (s : alb.FreelistState)
    (n n2 : Nat) (hN : 1 ≤ cfg.batchN)
    (hlu : cfg.lower ≤ cfg.upper)
    (h1 : cfg.lower ≤ n) (h2 : n ≤ cfg.upper) (h3 : cfg.lower ≤ n2) (h4 : n2 ≤ cfg.upper)
    (hb : (allocate cfg d s n).1.toBool = true)
    (hroom : (allocate cfg d s n).2.pool.length < cfg.poolSize) :
    (allocate cfg d
        (freelist_base.deallocate cfg (allocate cfg d s n).2 (allocate cfg d s n).1).2 n2).1 =
      { ptr := (allocate cfg d s n).1.ptr, length := cfg.upper } ∧
    (freelist_base.deallocate cfg (allocate cfg d s n).2 (allocate cfg d s n).1).1 =
      Block.empty ∧
    (allocate cfg d
        (freelist_base.deallocate cfg (allocate cfg d s n).2 (allocate cfg d s n).1).2 n2).2.allocCalls =
      (allocate cfg d s n).2.allocCalls := by
  have hlen : (allocate cfg d s n).1.length = cfg.upper :=
    allocate_length_of_toBool cfg d s n h1 h2 hb
  have howns : owns cfg (allocate cfg d s n).1 = true := by
    unfold owns
    rw [hb, hlen]
    simp [hlu]
  have hde : freelist_base.deallocate cfg (allocate cfg d s n).2 (allocate cfg d s n).1 =
      (Block.empty,
        { (allocate cfg d s n).2 with
          pool := (allocate cfg d s n).1.ptr :: (allocate cfg d s n).2.pool }) := by
    unfold freelist_base.deallocate
    rw [hb, howns, if_pos hroom]
    simp
  rw [hde]
  unfold allocate
  rw [if_pos ⟨h3, h4⟩]
  exact ⟨rfl, rfl, rfl⟩

/-- Claim C9, witness: with pool capacity 4 ≥ batch size 2 the round trip
returns the very same pointer with no fresh delegate allocation. -/
theorem claim_C9_witness :
    (allocate { lower := 4, upper := 8, poolSize := 4, batchN := 2, truncated := true } dSeq
        (freelist_base.deallocate { lower := 4, upper := 8, poolSize := 4, batchN := 2, truncated := true }
          (allocate { lower := 4, upper := 8, poolSize := 4, batchN := 2, truncated := true } dSeq
            alb.freelistInit 4).2
          (allocate { lower := 4, upper := 8, poolSize := 4, batchN := 2, truncated := true } dSeq
            alb.freelistInit 4).1).2 5).1 =
      { ptr := (allocate { lower := 4, upper := 8, poolSize := 4, batchN := 2, truncated := true } dSeq
          alb.freelistInit 4).1.ptr, length := 8 } ∧
    (freelist_base.deallocate { lower := 4, upper := 8, poolSize := 4, batchN := 2, truncated := true }
        (allocate { lower := 4, upper := 8, poolSize := 4, batchN := 2, truncated := true } dSeq
          alb.freelistInit 4).2
        (allocate { lower := 4, upper := 8, poolSize := 4, batchN := 2, truncated := true } dSeq
          alb.freelistInit 4).1).1 = Block.empty ∧
    (allocate { lower := 4, upper := 8, poolSize := 4, batchN := 2, truncated := true } dSeq
        (freelist_base.deallocate { lower := 4, upper := 8, poolSize := 4, batchN := 2, truncated := true }
          (allocate { lower := 4, upper := 8, poolSize := 4, batchN := 2, truncated := true } dSeq
            alb.freelistInit 4).2
          (allocate { lower := 4, upper := 8, poolSize := 4, batchN := 2, truncated := true } dSeq
            alb.freelistInit 4).1).2 5).2.allocCalls =
      (allocate { lower := 4, upper := 8, poolSize := 4, batchN := 2, truncated := true } dSeq
        alb.freelistInit 4).2.allocCalls :=
  claim_C9_amended { lower := 4, upper := 8, poolSize := 4, batchN := 2, truncated := true }
    dSeq alb.freelistInit 4 5 (by decide) (by decide) (by decide) (by decide) (by decide)
    (by decide) (by decide) (by decide)

/-- Claim C10: NoAtomic::compare_exchange_strong unconditionally stores v as
the new value and returns true, and never writes the observed value back
into the expected argument (which is returned to the caller unchanged) — the
non-concurrent compare-and-swap cannot fail. -/
theorem claim_C10 (T : Type) (a : alb.NoAtomic T) (expected v : T) :
    (a.compare_exchange_strong expected v).1.value = v ∧
    (a.compare_exchange_strong expected v).2.1 = expected ∧
    (a.compare_exchange_strong expected v).2.2 = true :=
  ⟨rfl, rfl, rfl⟩

/-- Claim C8: on a Stats Allocator with the bytesHighTide, bytesAllocated and
bytesDeallocated flags active, after any well-formed sequence of allocate /
deallocate operations whose total requested bytes fit in a size_t, the
high-tide counter equals the maximum value of
(bytes allocated − bytes deallocated) observed after each operation (and
initially 0) over the instance's lifetime. -/
theorem claim_C8 (F : Nat) (d : Delegate) (ops : List StatsOp)
    (hA : flagged F StatsOptions.bytesAllocated = true)
    (hD : flagged F StatsOptions.bytesDeallocated = true)
    (hH : flagged F StatsOptions.bytesHighTide = true)
    (hbound : allocTotal ops < M64)
    (hwf : wfOps F d statsInit ops = true) :
    (runOps F d statsInit ops).bytesHighTide =
      (outstandingTrace F d statsInit ops).foldl Nat.max 0 :=
  runOps_highTide F d hA hD hH ops statsInit (Nat.le_refl 0) (Nat.le_refl 0)
    (by unfold statsInit; simpa using hbound) hwf

/-- Claim C8, witness: for the sequence allocate(100), allocate(50),
deallocate(first), allocate(200) against a delegate that satisfies every
request exactly, the high-tide equals 250. -/
theorem claim_C8_witness :
    (runOps 68608 dTen statsInit
      [StatsOp.alloc 100, StatsOp.alloc 50, StatsOp.dealloc { ptr := some 10, length := 100 },
        StatsOp.alloc 200]).bytesHighTide = 250 := by
  have h := claim_C8 68608 dTen
    [StatsOp.alloc 100, StatsOp.alloc 50, StatsOp.dealloc { ptr := some 10, length := 100 },
      StatsOp.alloc 200]
    (by decide) (by decide) (by decide) (by decide) (by decide)
  rw [h]
  decide

/-- Claim C5, counterexample: deallocating an already-empty Block on a Stats
Allocator configured with the numDeallocate flag increments the
deallocate-call counter from 0 to 1, refuting the claim that every counter
is left unchanged for every flag configuration. -/
theorem claim_C5_counterexample :
    (statsDeallocate StatsOptions.numDeallocate statsInit Block.empty).2.numDeallocate = 1 ∧
    statsInit.numDeallocate = 0 := by
  constructor <;> rfl

/-- Claim C5, amended: deallocating an already-empty Block is a complete
no-op on the Free-List Allocator for every configuration and state; on the
Stats Allocator it leaves the byte counters, the metadata list and all other
state unchanged, except that the deallocate-call counter is incremented when
the numDeallocate flag is set. -/
theorem claim_C5_amended (cfg : FreelistConfig) (fs : alb.FreelistState)
    (F : Nat) (s : StatsState)
    (hn : s.numDeallocate + 1 < M64) (hd : s.bytesDeallocated < M64) :
    freelist_base.deallocate cfg fs Block.empty = (Block.empty, fs) ∧
    statsDeallocate F s Block.empty =
      (Block.empty,
        { s with numDeallocate :=
            if flagged F StatsOptions.numDeallocate then s.numDeallocate + 1
            else s.numDeallocate }) := by
  constructor
  · rfl
  · have hup : up F StatsOptions.numDeallocate s.numDeallocate =
        (if flagged F StatsOptions.numDeallocate then s.numDeallocate + 1
          else s.numDeallocate) := by
      unfold up
      split
      · exact add64_eq _ _ hn
      · rfl
    have hadd : add F StatsOptions.bytesDeallocated s.bytesDeallocated Block.empty.length =
        s.bytesDeallocated := by
      unfold add
      split
      · show add64 s.bytesDeallocated 0 = s.bytesDeallocated
        rw [add64_eq _ _ (by omega)]
        omega
      · rfl
    unfold statsDeallocate statsDeallocFree statsDeallocUnlink statsDeallocCore
    rw [hup, hadd]
    rfl

/-- Claim C5, witness: the amended theorem at the initial state with only
the numDeallocate flag set: the empty-block deallocate leaves everything
unchanged except the deallocate-call counter, which becomes 1. -/
theorem claim_C5_witness :
    freelist_base.deallocate { lower := 4, upper := 8, poolSize := 4, batchN := 2, truncated := true }
        alb.freelistInit Block.empty = (Block.empty, alb.freelistInit) ∧
    statsDeallocate StatsOptions.numDeallocate statsInit Block.empty =
      (Block.empty, { statsInit with numDeallocate := 1 }) :=
  claim_C5_amended { lower := 4, upper := 8, poolSize := 4, batchN := 2, truncated := true }
    alb.freelistInit StatsOptions.numDeallocate statsInit (by decide) (by decide)

/-- Claim C2, code evaluation at the failing input: with only the callerSize
flag, HasPerAllocationState is false (the source tests only callerTime,
callerFile and callerLine), so after allocating A (100 bytes) then B
(50 bytes) then deallocating A, no metadata was ever captured: the list head
is null and no node is live — the list does not contain B's node with its
size field, contradicting the claim and the callerSize flag's own
documentation. -/
theorem claim_C2_code_eval :
    hasPerAllocationState StatsOptions.callerSize = false ∧
    (statsDeallocate StatsOptions.callerSize
        (statsAllocate StatsOptions.callerSize dTen
          (statsAllocate StatsOptions.callerSize dTen statsInit 100 0 0 0).2 50 0 0 0).2
        (statsAllocate StatsOptions.callerSize dTen statsInit 100 0 0 0).1).2.root = none ∧
    (statsDeallocate StatsOptions.callerSize
        (statsAllocate StatsOptions.callerSize dTen
          (statsAllocate StatsOptions.callerSize dTen statsInit 100 0 0 0).2 50 0 0 0).2
        (statsAllocate StatsOptions.callerSize dTen statsInit 100 0 0 0).1).2.heap = [] := by
  refine ⟨rfl, ?_, ?_⟩ <;> rfl

/-- Claim C3, code evaluation at the failing input: with per-allocation
capture active (callerFile), allocate A (node at address 10) then B (node at
address 11, the head), then deallocate B. The source sets the head to
stat->previous — null for the head — instead of stat->next, so the head
becomes null while A's node (address 10) is still live, and the visible list
is empty: the remainder of the list is lost, contradicting the claim that
the head pointer is updated to the node's successor with list integrity
preserved. -/
theorem claim_C3_code_eval :
    (statsDeallocate StatsOptions.callerFile
        (statsAllocate StatsOptions.callerFile dTen
          (statsAllocate StatsOptions.callerFile dTen statsInit 100 7 0 0).2 50 7 0 0).2
        (statsAllocate StatsOptions.callerFile dTen
          (statsAllocate StatsOptions.callerFile dTen statsInit 100 7 0 0).2 50 7 0 0).1).2.root =
      none ∧
    (heapGet
        (statsDeallocate StatsOptions.callerFile
          (statsAllocate StatsOptions.callerFile dTen
            (statsAllocate StatsOptions.callerFile dTen statsInit 100 7 0 0).2 50 7 0 0).2
          (statsAllocate StatsOptions.callerFile dTen
            (statsAllocate StatsOptions.callerFile dTen statsInit 100 7 0 0).2 50 7 0 0).1).2.heap
        10).isSome = true ∧
    walkList
        (statsDeallocate StatsOptions.callerFile
          (statsAllocate StatsOptions.callerFile dTen
            (statsAllocate StatsOptions.callerFile dTen statsInit 100 7 0 0).2 50 7 0 0).2
          (statsAllocate StatsOptions.callerFile dTen
            (statsAllocate StatsOptions.callerFile dTen statsInit 100 7 0 0).2 50 7 0 0).1).2.heap
        1
        (statsDeallocate StatsOptions.callerFile
          (statsAllocate StatsOptions.callerFile dTen
            (statsAllocate StatsOptions.callerFile dTen statsInit 100 7 0 0).2 50 7 0 0).2
          (statsAllocate StatsOptions.callerFile dTen
            (statsAllocate StatsOptions.callerFile dTen statsInit 100 7 0 0).2 50 7 0 0).1).2.root =
      [] := by
  refine ⟨?_, ?_, ?_⟩ <;> rfl
